import Mathlib

/-!
Verification of the trivia quiz core (file src/trivia-quiz-app.py).

The development shallowly embeds the three stateful components of the
program and its pure extractor:

* `DBState` is the state of the sqlite database owned by
  `TriviaQuizDatabase` (two tables, `questions` and `quiz_history`,
  each modelled as a list in rowid, i.e. insertion, order).
* `insert_or_update_question`, `record_quiz_result`,
  `update_question_stats` and `get_challenging_questions` are the four
  database methods.  SQL `ORDER BY ... ASC` over the full-table scan is
  modelled as a stable sort (insertion sort) of the rows in rowid order,
  and the REAL division `correct_attempts * 1.0 / total_attempts` as the
  exact rational rate; rows with `total_attempts = 0` are filtered out
  by the WHERE clause before the sort, so the comparison is only ever
  used on rows with a positive denominator.
* `generate_trivia_questions` is the pure extractor
  `QuestionGenerator.generate_trivia_questions`, taking the file content
  as a string.  The regex `[A-Z][^.!?]*` of `re.findall` is embedded as
  the character scan `scanSentences`, and Python `str.split()` word
  counting as `countWords` (ASCII whitespace; the inputs considered here
  contain no further Unicode whitespace).  Python `list(set(...))`
  returns the distinct elements in unspecified order; the embedding uses
  `List.dedup`, and all theorems use the result only through membership
  and cardinality, which do not depend on the order chosen.
* `AppState` is the mutable state of `TriviaQuizApp` that the core logic
  touches: the database plus `current_questions` and
  `current_source_file`.  `generate_quiz` takes the list chosen by
  `random.sample(questions, min(num_questions, len(questions)))` as an
  explicit argument (the randomness is externalized); `submit_answers`
  takes the answer list.  Timestamps (`DATETIME DEFAULT
  CURRENT_TIMESTAMP`) are not modelled; the position in the append-only
  history list records creation order.
-/

/-- A row of the `questions` table.  Counters are natural numbers: the
schema creates them as `DEFAULT 0` and the only mutation adds a
non-negative quantity, so the program never stores a negative counter. -/
structure Question where
  text : String
  source_file : String
  total_attempts : Nat
  correct_attempts : Nat
deriving DecidableEq

/-- A row of the `quiz_history` table.  The count columns are INTEGER
columns with no constraint, so they are modelled as integers.  The
`date` column is not modelled (see the header comment). -/
structure SessionRecord where
  total_questions : Int
  correct_questions : Int
  source_file : Option String
deriving DecidableEq

/-- The state of the sqlite database: both tables, each in rowid
(insertion) order. -/
structure DBState where
  questions : List Question
  quiz_history : List SessionRecord
deriving DecidableEq

/-- The database created by `_create_tables` on a fresh file. -/
def emptyDB : DBState := ⟨[], []⟩

/-- Method `insert_or_update_question`:
`INSERT OR IGNORE INTO questions (question, source_file) VALUES (?, ?)`.
If a row with the same `question` text exists the statement is ignored;
otherwise a row with the two defaulted zero counters is appended. -/
def insert_or_update_question (db : DBState) (question source_file : String) :
    DBState :=
  if db.questions.any (fun r => r.text = question) then db
  else { db with questions := db.questions ++ [⟨question, source_file, 0, 0⟩] }

/-- Method `record_quiz_result`: unconditional
`INSERT INTO quiz_history (total_questions, correct_questions, source_file)`. -/
def record_quiz_result (db : DBState) (total_questions correct_questions : Int)
    (source_file : Option String) : DBState :=
  { db with quiz_history :=
      db.quiz_history ++ [⟨total_questions, correct_questions, source_file⟩] }

/-- The effect of the UPDATE of `update_question_stats` on one row:
`SET total_attempts = total_attempts + 1, correct_attempts =
correct_attempts + ?` with parameter `1 if is_correct else 0`, applied
exactly to the rows satisfying `WHERE question = ?`. -/
def updRow (question : String) (is_correct : Bool) (r : Question) : Question :=
  if r.text = question then
    { r with total_attempts := r.total_attempts + 1,
             correct_attempts := r.correct_attempts + (if is_correct then 1 else 0) }
  else r

/-- Method `update_question_stats`:
`UPDATE questions SET total_attempts = total_attempts + 1,
correct_attempts = correct_attempts + ? WHERE question = ?`
with parameter `1 if is_correct else 0`.  The update touches every row
whose text matches (at most one, by the UNIQUE constraint) and touches
nothing when no row matches. -/
def update_question_stats (db : DBState) (question : String) (is_correct : Bool) :
    DBState :=
  { db with questions := db.questions.map (updRow question is_correct) }

/-- Numerator of the success rate of a row, guarded so that the pair
`qnum, qden` always denotes a rational with positive denominator.  Rows
with `total_attempts = 0` are removed by the WHERE clause before the
rate is ever computed, so the guard never matters for a compared row; it
only makes the comparison `rateLE` a total preorder on all of
`Question`. -/
def qnum (r : Question) : Nat :=
  if r.total_attempts = 0 then 0 else r.correct_attempts

/-- Denominator of the success rate of a row; see `qnum`. -/
def qden (r : Question) : Nat :=
  if r.total_attempts = 0 then 1 else r.total_attempts

/-- The exact success rate `correct_attempts / total_attempts` of a row
as a rational number. -/
def rateQ (r : Question) : ℚ := (qnum r : ℚ) / (qden r : ℚ)

/-- The comparison used by
`ORDER BY (correct_attempts * 1.0 / total_attempts) ASC`, expressed by
cross multiplication over the natural numbers so that it is executable
without rational arithmetic. -/
def rateLE (a b : Question) : Prop := qnum a * qden b ≤ qnum b * qden a

instance : DecidableRel rateLE := fun a b =>
  inferInstanceAs (Decidable (qnum a * qden b ≤ qnum b * qden a))

/-- The WHERE clause `total_attempts > 0`. -/
def hasAttempts (r : Question) : Bool := 0 < r.total_attempts

/-- The rows selected by `get_challenging_questions` before LIMIT: the
rows with at least one attempt, stably sorted ascending by success
rate. -/
def challengingRows (db : DBState) : List Question :=
  List.insertionSort rateLE (db.questions.filter hasAttempts)

/-- Method `get_challenging_questions`:
`SELECT question FROM questions WHERE total_attempts > 0 ORDER BY
(correct_attempts * 1.0 / total_attempts) ASC LIMIT ?`. -/
def get_challenging_questions (db : DBState) (limit : Nat) : List String :=
  ((challengingRows db).take limit).map (fun r => r.text)

/-- Characters matched by the regex class `[A-Z]`. -/
def isUpperChar (c : Char) : Bool := 'A' ≤ c && c ≤ 'Z'

/-- Characters excluded by the regex class `[^.!?]`. -/
def isSentenceEnd (c : Char) : Bool := c = '.' || c = '!' || c = '?'

/-- Left-to-right scan implementing the `re.findall` call on the regex
pattern `[A-Z][^.!?]*` over the content:
a match starts at an uppercase ASCII letter and greedily extends over
every character that is not a sentence terminator; matches do not
overlap, and scanning resumes at the character that ended a match.  The
accumulator holds the reversed characters of the match in progress. -/
def scanSentences : List Char → Option (List Char) → List (List Char)
  | [], none => []
  | [], some acc => [acc.reverse]
  | c :: rest, none =>
      if isUpperChar c then scanSentences rest (some [c])
      else scanSentences rest none
  | c :: rest, some acc =>
      if isSentenceEnd c then acc.reverse :: scanSentences rest none
      else scanSentences rest (some (c :: acc))

/-- Result of the `re.findall` call on the pattern `[A-Z][^.!?]*`, as a
list of strings in source order. -/
def reFindAll (content : String) : List String :=
  (scanSentences content.toList none).map (fun cs => String.mk cs)

/-- ASCII whitespace, as recognized by Python `str.split()` and
`str.strip()`. -/
def pyIsSpace (c : Char) : Bool :=
  c = ' ' || c = '\t' || c = '\n' || c = '\r' || c = '\x0b' || c = '\x0c'

/-- Word counting scan: `countWords cs inWord` is the number of maximal
whitespace-free runs in `cs`, where `inWord` records whether the
previous character belonged to a run. -/
def countWords : List Char → Bool → Nat
  | [], _ => 0
  | c :: rest, inWord =>
      if pyIsSpace c then countWords rest false
      else (if inWord then 0 else 1) + countWords rest true

/-- Python `len(sentence.split())`: the number of whitespace-delimited
words. -/
def wordCount (s : String) : Nat := countWords s.toList false

/-- The `what_questions` list comprehension: format every matched
sentence with more than 4 words, then keep the first 10 results. -/
def whatQuestions (content : String) : List String :=
  (((reFindAll content).filter (fun s => 4 < wordCount s)).map
    (fun s => "What " ++ s ++ "?")).take 10

/-- The `why_questions` list comprehension: threshold 5 words. -/
def whyQuestions (content : String) : List String :=
  (((reFindAll content).filter (fun s => 5 < wordCount s)).map
    (fun s => "Why is " ++ s ++ "?")).take 10

/-- The `how_questions` list comprehension: threshold 5 words. -/
def howQuestions (content : String) : List String :=
  (((reFindAll content).filter (fun s => 5 < wordCount s)).map
    (fun s => "How does " ++ s ++ "?")).take 10

/-- Method `QuestionGenerator.generate_trivia_questions`, applied to the file
content: the three kinds concatenated and deduplicated
(`list(set(questions))`). -/
def generate_trivia_questions (content : String) : List String :=
  (whatQuestions content ++ whyQuestions content ++ howQuestions content).dedup

/-- The extraction procedure as described by claim C4, for comparison
with the source-derived `generate_trivia_questions`: each of the three
kinds truncates the regex matches to the first 10 BEFORE applying its
word-count filter. -/
def generate_trivia_questions_claim (content : String) : List String :=
  (((((reFindAll content).take 10).filter (fun s => 4 < wordCount s)).map
      (fun s => "What " ++ s ++ "?"))
    ++ ((((reFindAll content).take 10).filter (fun s => 5 < wordCount s)).map
      (fun s => "Why is " ++ s ++ "?"))
    ++ ((((reFindAll content).take 10).filter (fun s => 5 < wordCount s)).map
      (fun s => "How does " ++ s ++ "?"))).dedup

/-- The mutable state of `TriviaQuizApp` used by the core logic. -/
structure AppState where
  db : DBState
  current_questions : List String
  current_source_file : Option String
deriving DecidableEq

/-- The state right after `TriviaQuizApp.__init__` with a fresh
database file: no questions generated yet, no source file selected. -/
def initialAppState : AppState := ⟨emptyDB, [], none⟩

/-- Python `user_answer.strip()` for ASCII whitespace. -/
def pyStrip (s : String) : String :=
  String.mk (((s.toList.dropWhile pyIsSpace).reverse.dropWhile pyIsSpace).reverse)

/-- The placeholder grading rule of `submit_answers`:
`is_correct = len(user_answer.strip()) > 0`. -/
def is_correct_answer (user_answer : String) : Bool :=
  0 < (pyStrip user_answer).length

/-- Method `TriviaQuizApp.generate_quiz`, with the choice of
`random.sample(questions, min(num_questions, len(questions)))`
externalized as the argument `sample`, and the previously selected
source file as `source_file`: the sampled questions become the current
session and each of them is upserted into the database tagged with the
source file. -/
def generate_quiz (st : AppState) (sample : List String) (source_file : String) :
    AppState :=
  { db := sample.foldl (fun d q => insert_or_update_question d q source_file) st.db
    current_questions := sample
    current_source_file := some source_file }

/-- The legal values of `sample` for `generate_quiz` on a file with the
given content: `random.sample` returns distinct elements of the
candidate list, `min n (number of candidates)` of them. -/
def validSample (content : String) (n : Nat) (sample : List String) : Prop :=
  sample.Nodup
  ∧ sample.length = min n (generate_trivia_questions content).length
  ∧ ∀ q ∈ sample, q ∈ generate_trivia_questions content

/-- One iteration of the scoring loop of `submit_answers`: grade the
answer, update the statistics of the paired question, and bump the
correct counter when the answer was graded correct. -/
def scoreStep (acc : DBState × Nat) (p : String × String) : DBState × Nat :=
  (update_question_stats acc.1 p.1 (is_correct_answer p.2),
   if is_correct_answer p.2 then acc.2 + 1 else acc.2)

/-- Method `TriviaQuizApp.submit_answers`, with the answer list as argument:
pair the current questions with the answers via `zip` (truncating to the
shorter list), run the scoring loop, then record the quiz result with
the full session length as total.  Returns the new state together with
the displayed pair (correct count, total). -/
def submit_answers (st : AppState) (user_answers : List String) :
    AppState × Nat × Nat :=
  let pairs := st.current_questions.zip user_answers
  let res := pairs.foldl scoreStep (st.db, 0)
  let db2 := record_quiz_result res.1 (st.current_questions.length : Int)
    (res.2 : Int) st.current_source_file
  (⟨db2, st.current_questions, st.current_source_file⟩,
   res.2, st.current_questions.length)

/-- The error taxonomy named by the specification. -/
inductive LedgerError where
  | notFound
  | invalidArgument
deriving DecidableEq

/-- The source method `update_question_stats` contains no raise and no
error path: lifted to `Except`, every call returns `ok`. -/
def update_question_stats_exc (db : DBState) (question : String)
    (is_correct : Bool) : Except LedgerError DBState :=
  Except.ok (update_question_stats db question is_correct)

/-- Ledger update as the specification words it (for comparison with the
source behaviour): increments the counters of `question`, failing with
`notFound` if the text has never been upserted. -/
def update_stats_spec (db : DBState) (question : String) (is_correct : Bool) :
    Except LedgerError DBState :=
  if db.questions.any (fun r => r.text = question) then
    Except.ok (update_question_stats db question is_correct)
  else Except.error LedgerError.notFound

/-- The source method `record_quiz_result` contains no validation and no
error path: lifted to `Except`, every call returns `ok`. -/
def record_quiz_result_exc (db : DBState) (total_questions correct_questions : Int)
    (source_file : Option String) : Except LedgerError DBState :=
  Except.ok (record_quiz_result db total_questions correct_questions source_file)

/-- Session recording as the specification words it (for comparison with
the source behaviour): appends the record when
`0 ≤ correct ≤ total` and fails with `invalidArgument` otherwise. -/
def record_session_spec (db : DBState) (total_questions correct_questions : Int)
    (source_file : Option String) : Except LedgerError DBState :=
  if 0 ≤ correct_questions ∧ correct_questions ≤ total_questions then
    Except.ok (record_quiz_result db total_questions correct_questions source_file)
  else Except.error LedgerError.invalidArgument

/-- The three mutating database methods, as an operation alphabet for
stating invariants over every reachable database state. -/
inductive LedgerOp where
  | upsert (question source_file : String)
  | recordResult (total_questions correct_questions : Int) (source_file : Option String)
  | updateStats (question : String) (is_correct : Bool)

/-- Apply one database method. -/
def applyOp (db : DBState) : LedgerOp → DBState
  | LedgerOp.upsert q sf => insert_or_update_question db q sf
  | LedgerOp.recordResult t c sf => record_quiz_result db t c sf
  | LedgerOp.updateStats q b => update_question_stats db q b

/-- The database state after a sequence of method calls on a fresh
database. -/
def runOps (ops : List LedgerOp) : DBState := ops.foldl applyOp emptyDB

/-- The counter invariant of the questions table. -/
def countersWF (db : DBState) : Prop :=
  ∀ r ∈ db.questions, r.correct_attempts ≤ r.total_attempts

lemma qden_pos (r : Question) : 0 < qden r := by
  unfold qden
  split <;> omega

lemma rateLE_iff_rateQ (a b : Question) : rateLE a b ↔ rateQ a ≤ rateQ b := by
  unfold rateLE rateQ
  rw [div_le_div_iff₀ (by exact_mod_cast qden_pos a) (by exact_mod_cast qden_pos b)]
  constructor
  · intro h
    exact_mod_cast h
  · intro h
    exact_mod_cast h

instance : IsTotal Question rateLE :=
  ⟨fun a b => Nat.le_total (qnum a * qden b) (qnum b * qden a)⟩

instance : IsTrans Question rateLE :=
  ⟨fun a b c h1 h2 => (rateLE_iff_rateQ a c).mpr
    (le_trans ((rateLE_iff_rateQ a b).mp h1) ((rateLE_iff_rateQ b c).mp h2))⟩

lemma rateQ_of_pos (r : Question) (h : 0 < r.total_attempts) :
    rateQ r = (r.correct_attempts : ℚ) / (r.total_attempts : ℚ) := by
  unfold rateQ qnum qden
  rw [if_neg (by omega), if_neg (by omega)]

lemma hasAttempts_iff (r : Question) : hasAttempts r = true ↔ 0 < r.total_attempts := by
  simp [hasAttempts]

/-- C1: for every state of the ledger and every limit,
`get_challenging_questions` returns exactly `min limit k` texts where `k`
counts the questions with at least one attempt (in particular, at most
`limit`, and never-attempted questions are excluded rather than ranked
at rate 0); every returned text belongs to a stored question with
`total_attempts > 0`; the underlying row list is ordered ascending by
the comparison `rateLE`, which on attempted questions coincides with the
rational success rate `correct_attempts / total_attempts`; and the sort
is stable, so rows with equal rates keep their insertion order. -/
theorem challenging_correct (db : DBState) (limit : Nat) :
    (get_challenging_questions db limit).length
        = min limit (db.questions.filter hasAttempts).length
  ∧ (∀ t ∈ get_challenging_questions db limit,
      ∃ r ∈ db.questions, r.text = t ∧ 0 < r.total_attempts)
  ∧ List.Sorted rateLE (challengingRows db)
  ∧ (∀ a b : Question, rateLE a b →
      List.Sublist [a, b] (db.questions.filter hasAttempts) →
      List.Sublist [a, b] (challengingRows db))
  ∧ (∀ a b : Question, 0 < a.total_attempts → 0 < b.total_attempts →
      (rateLE a b ↔
        (a.correct_attempts : ℚ) / (a.total_attempts : ℚ)
          ≤ (b.correct_attempts : ℚ) / (b.total_attempts : ℚ))) := by
  refine ⟨?_, ?_, ?_, ?_, ?_⟩
  · simp [get_challenging_questions, challengingRows, List.length_insertionSort]
  · intro t ht
    simp only [get_challenging_questions, List.mem_map] at ht
    obtain ⟨r, hr, rfl⟩ := ht
    have h1 : r ∈ challengingRows db := List.mem_of_mem_take hr
    have h2 : r ∈ db.questions.filter hasAttempts :=
      (List.mem_insertionSort rateLE).mp h1
    have h3 := List.mem_filter.mp h2
    exact ⟨r, h3.1, rfl, (hasAttempts_iff r).mp h3.2⟩
  · exact List.sorted_insertionSort rateLE _
  · intro a b hab hsub
    exact List.pair_sublist_insertionSort hab hsub
  · intro a b ha hb
    rw [rateLE_iff_rateQ, rateQ_of_pos a ha, rateQ_of_pos b hb]

def qW1 : Question := ⟨"a", "f", 2, 1⟩

def qW2 : Question := ⟨"b", "f", 4, 2⟩

def qW3 : Question := ⟨"c", "f", 0, 0⟩

def qW4 : Question := ⟨"d", "f", 1, 1⟩

def dbW : DBState := ⟨[qW1, qW2, qW3, qW4], []⟩

/-- Witness for `challenging_correct` at a concrete ledger state holding
two equal-rate questions, one never-attempted question and one always
correct question. -/
theorem challenging_correct_witness :
    (∃ r ∈ dbW.questions, r.text = "a" ∧ 0 < r.total_attempts)
  ∧ List.Sublist [qW1, qW2] (challengingRows dbW)
  ∧ (rateLE qW1 qW4 ↔
      (qW1.correct_attempts : ℚ) / (qW1.total_attempts : ℚ)
        ≤ (qW4.correct_attempts : ℚ) / (qW4.total_attempts : ℚ)) :=
  ⟨(challenging_correct dbW 2).2.1 "a" (by decide),
   (challenging_correct dbW 2).2.2.2.1 qW1 qW2 (by decide) (by decide),
   (challenging_correct dbW 2).2.2.2.2 qW1 qW4 (by decide) (by decide)⟩

lemma updRow_text (q : String) (b : Bool) (r : Question) :
    (updRow q b r).text = r.text := by
  unfold updRow
  split <;> rfl

lemma updRow_total (q : String) (b : Bool) (r : Question) :
    r.total_attempts ≤ (updRow q b r).total_attempts := by
  unfold updRow
  split
  · exact Nat.le_succ _
  · exact Nat.le_refl _

lemma updRow_correct (q : String) (b : Bool) (r : Question) :
    r.correct_attempts ≤ (updRow q b r).correct_attempts := by
  unfold updRow
  split
  · exact Nat.le_add_right _ _
  · exact Nat.le_refl _

lemma updRow_wf (q : String) (b : Bool) (r : Question)
    (h : r.correct_attempts ≤ r.total_attempts) :
    (updRow q b r).correct_attempts ≤ (updRow q b r).total_attempts := by
  unfold updRow
  split
  · show r.correct_attempts + (if b then 1 else 0) ≤ r.total_attempts + 1
    cases b
    · show r.correct_attempts + 0 ≤ r.total_attempts + 1
      omega
    · show r.correct_attempts + 1 ≤ r.total_attempts + 1
      omega
  · exact h

lemma updRow_noop (q : String) (b : Bool) (r : Question) (h : r.text ≠ q) :
    updRow q b r = r := by
  unfold updRow
  rw [if_neg h]

lemma countersWF_insert (db : DBState) (q sf : String) (h : countersWF db) :
    countersWF (insert_or_update_question db q sf) := by
  intro r hr
  unfold insert_or_update_question at hr
  split at hr
  · exact h r hr
  · simp only [List.mem_append, List.mem_singleton] at hr
    rcases hr with hr | rfl
    · exact h r hr
    · exact Nat.le_refl 0

lemma countersWF_update (db : DBState) (q : String) (b : Bool) (h : countersWF db) :
    countersWF (update_question_stats db q b) := by
  intro r hr
  simp only [update_question_stats, List.mem_map] at hr
  obtain ⟨s, hs, rfl⟩ := hr
  exact updRow_wf q b s (h s hs)

lemma countersWF_applyOp (db : DBState) (op : LedgerOp) (h : countersWF db) :
    countersWF (applyOp db op) := by
  cases op with
  | upsert q sf => exact countersWF_insert db q sf h
  | recordResult t c sf => exact h
  | updateStats q b => exact countersWF_update db q b h

lemma countersWF_foldl (ops : List LedgerOp) (db : DBState) (h : countersWF db) :
    countersWF (ops.foldl applyOp db) := by
  induction ops generalizing db with
  | nil => exact h
  | cons op rest ih => exact ih _ (countersWF_applyOp db op h)

/-- C5: in every database state reachable by any sequence of ledger
method calls on a fresh database, every question satisfies
`correct_attempts ≤ total_attempts` (both counters are natural numbers,
hence non-negative); a freshly inserted row starts with both counters
zero; and each `update_question_stats` call leaves every row in place
with both counters non-decreasing (in particular `total_attempts` is
monotone across calls). -/
theorem counters_invariant :
    (∀ ops : List LedgerOp, countersWF (runOps ops))
  ∧ (∀ (db : DBState) (q sf : String) (r : Question),
      r ∈ (insert_or_update_question db q sf).questions →
        r ∈ db.questions ∨ (r.total_attempts = 0 ∧ r.correct_attempts = 0))
  ∧ (∀ (db : DBState) (q : String) (b : Bool) (r : Question),
      r ∈ db.questions →
        ∃ r2 ∈ (update_question_stats db q b).questions,
          r2.text = r.text ∧ r.total_attempts ≤ r2.total_attempts
            ∧ r.correct_attempts ≤ r2.correct_attempts) := by
  refine ⟨?_, ?_, ?_⟩
  · intro ops
    exact countersWF_foldl ops emptyDB (fun r hr => by cases hr)
  · intro db q sf r hr
    unfold insert_or_update_question at hr
    split at hr
    · exact Or.inl hr
    · simp only [List.mem_append, List.mem_singleton] at hr
      rcases hr with hr | rfl
      · exact Or.inl hr
      · exact Or.inr ⟨rfl, rfl⟩
  · intro db q b r hr
    exact ⟨updRow q b r, List.mem_map_of_mem _ hr,
      updRow_text q b r, updRow_total q b r, updRow_correct q b r⟩

/-- Witness for `counters_invariant`: a fresh insertion carries zero
counters, and an update leaves the first row of `dbW` in place with
counters not decreased. -/
theorem counters_invariant_witness :
    ((⟨"a", "f", 0, 0⟩ : Question) ∈ emptyDB.questions
        ∨ ((⟨"a", "f", 0, 0⟩ : Question).total_attempts = 0
            ∧ (⟨"a", "f", 0, 0⟩ : Question).correct_attempts = 0))
  ∧ (∃ r2 ∈ (update_question_stats dbW "a" true).questions,
      r2.text = qW1.text ∧ qW1.total_attempts ≤ r2.total_attempts
        ∧ qW1.correct_attempts ≤ r2.correct_attempts) :=
  ⟨counters_invariant.2.1 emptyDB "a" "f" ⟨"a", "f", 0, 0⟩ (by decide),
   counters_invariant.2.2 dbW "a" true qW1 (by decide)⟩

lemma present_after_insert (db : DBState) (q sf : String) :
    (insert_or_update_question db q sf).questions.any (fun r => r.text = q) = true := by
  unfold insert_or_update_question
  split
  · assumption
  · simp [List.any_append]

/-- C6: `insert_or_update_question` is idempotent and silent on
duplicates: if the text is already present the call returns the database
unchanged (for any source file, including a different one), and a second
call with the same text is always a no-op after the first. -/
theorem upsert_idempotent (db : DBState) (q sf sf2 : String) :
    (db.questions.any (fun r => r.text = q) = true →
        insert_or_update_question db q sf2 = db)
  ∧ insert_or_update_question (insert_or_update_question db q sf) q sf2
      = insert_or_update_question db q sf := by
  have noop : ∀ (d : DBState) (s : String),
      d.questions.any (fun r => r.text = q) = true →
        insert_or_update_question d q s = d := by
    intro d s h
    unfold insert_or_update_question
    rw [if_pos h]
  exact ⟨noop db sf2, noop _ sf2 (present_after_insert db q sf)⟩

/-- Witness for `upsert_idempotent`: re-upserting the text of the first
row of `dbW` under a different source file changes nothing. -/
theorem upsert_idempotent_witness :
    insert_or_update_question dbW "a" "g" = dbW :=
  (upsert_idempotent dbW "a" "f" "g").1 (by decide)

/-- C2 counterexample: updating the statistics of a text that was never
upserted does not fail.  The source method, whose body has no error
path, returns normally and leaves the fresh database unchanged, while
the behaviour the claim describes is a `notFound` failure. -/
theorem update_stats_missing_counterexample :
    update_question_stats_exc emptyDB "What is this?" true = Except.ok emptyDB
  ∧ update_stats_spec emptyDB "What is this?" true
      = Except.error LedgerError.notFound := by
  constructor
  · rfl
  · rfl

/-- C2 (amended): calling `update_question_stats` with a text that is
not present in the questions table is a silent no-op: the SQL UPDATE
matches zero rows, no error is raised, and the database is returned
unchanged. -/
theorem update_stats_missing_noop (db : DBState) (q : String) (b : Bool)
    (h : ∀ r ∈ db.questions, r.text ≠ q) :
    update_question_stats db q b = db := by
  unfold update_question_stats
  have hm : db.questions.map (updRow q b) = db.questions := by
    conv_rhs => rw [← List.map_id db.questions]
    exact List.map_congr_left (fun r hr => by rw [updRow_noop q b r (h r hr)]; rfl)
  rw [hm]

/-- Witness for `update_stats_missing_noop` on a non-empty database. -/
theorem update_stats_missing_noop_witness :
    update_question_stats dbW "zzz" true = dbW :=
  update_stats_missing_noop dbW "zzz" true (by decide)

/-- C7 counterexample: `record_quiz_result` performs no validation.
With `correct > total` and with `correct < 0` the source method appends
the malformed row and returns normally, while the behaviour the claim
describes is an `invalidArgument` failure with nothing appended. -/
theorem record_invalid_counterexample :
    record_quiz_result_exc emptyDB 0 5 none = Except.ok ⟨[], [⟨0, 5, none⟩]⟩
  ∧ record_session_spec emptyDB 0 5 none
      = Except.error LedgerError.invalidArgument
  ∧ record_quiz_result_exc emptyDB 3 (-1) none = Except.ok ⟨[], [⟨3, -1, none⟩]⟩
  ∧ record_session_spec emptyDB 3 (-1) none
      = Except.error LedgerError.invalidArgument := by
  refine ⟨rfl, rfl, rfl, rfl⟩

/-- C7 (amended): `record_quiz_result` appends exactly one session
record for every input, including inputs violating
`0 ≤ correct ≤ total`; it validates nothing, raises nothing, and leaves
the questions table untouched. -/
theorem record_always_appends (db : DBState) (t c : Int) (sf : Option String) :
    (record_quiz_result db t c sf).quiz_history = db.quiz_history ++ [⟨t, c, sf⟩]
  ∧ (record_quiz_result db t c sf).questions = db.questions :=
  ⟨rfl, rfl⟩

/-- C8 counterexample: calling `submit_answers` in the initial state,
where no quiz was ever generated, does not fail; it silently appends a
session record with zero totals, so the session history IS modified. -/
theorem submit_no_session_counterexample :
    (submit_answers initialAppState ["hi"]).1.db.quiz_history = [⟨0, 0, none⟩]
  ∧ (submit_answers initialAppState ["hi"]).1.db.quiz_history
      ≠ initialAppState.db.quiz_history := by
  constructor
  · rfl
  · intro h
    rw [show (submit_answers initialAppState ["hi"]).1.db.quiz_history
          = [(⟨0, 0, none⟩ : SessionRecord)] from rfl,
        show initialAppState.db.quiz_history = [] from rfl] at h
    exact List.cons_ne_nil _ _ h

/-- C8 (amended): with no active session (`current_questions` empty, as
in the initial state) `submit_answers` does not fail: it pairs nothing,
touches no question counters, reports zero out of zero, but appends a
session record with `total = 0` and `correct = 0` to the history. -/
theorem submit_no_session_behavior (st : AppState) (answers : List String)
    (h : st.current_questions = []) :
    (submit_answers st answers).1.db.questions = st.db.questions
  ∧ (submit_answers st answers).1.db.quiz_history
      = st.db.quiz_history ++ [⟨0, 0, st.current_source_file⟩]
  ∧ (submit_answers st answers).2 = (0, 0) := by
  unfold submit_answers
  rw [h]
  exact ⟨rfl, rfl, rfl⟩

def stW8 : AppState := ⟨dbW, [], some "f"⟩

/-- Witness for `submit_no_session_behavior` on a session-free state
carrying a non-empty database. -/
theorem submit_no_session_behavior_witness :
    (submit_answers stW8 ["x"]).1.db.questions = stW8.db.questions
  ∧ (submit_answers stW8 ["x"]).1.db.quiz_history
      = stW8.db.quiz_history ++ [⟨0, 0, stW8.current_source_file⟩]
  ∧ (submit_answers stW8 ["x"]).2 = (0, 0) :=
  submit_no_session_behavior stW8 ["x"] rfl

lemma zip_take_self {α β : Type} (l1 : List α) (l2 : List β) :
    l1.zip (l2.take l1.length) = l1.zip l2 := by
  induction l1 generalizing l2 with
  | nil => rfl
  | cons a t ih =>
    cases l2 with
    | nil => rfl
    | cons b t2 => simp [ih]

lemma fst_mem_take_of_mem_zip {α β : Type} {l1 : List α} {l2 : List β}
    {p : α × β} (h : p ∈ l1.zip l2) :
    p.1 ∈ l1.take (min l1.length l2.length) := by
  induction l1 generalizing l2 with
  | nil => simp at h
  | cons a t ih =>
    cases l2 with
    | nil => simp at h
    | cons b t2 =>
      simp only [List.zip_cons_cons, List.mem_cons] at h
      rcases h with rfl | h2
      · simp [Nat.succ_min_succ]
      · simp only [List.length_cons, Nat.succ_min_succ, List.take_succ_cons,
          List.mem_cons]
        exact Or.inr (ih h2)

lemma mem_foldl_scoreStep (pairs : List (String × String)) (d : DBState) (c : Nat)
    (r : Question) (hr : r ∈ d.questions)
    (h : ∀ p ∈ pairs, p.1 ≠ r.text) :
    r ∈ (pairs.foldl scoreStep (d, c)).1.questions := by
  induction pairs generalizing d c with
  | nil => exact hr
  | cons p ps ih =>
    rw [List.foldl_cons]
    apply ih
    · show r ∈ ((update_question_stats d p.1 (is_correct_answer p.2)).questions)
      have hne : r.text ≠ p.1 := fun he => h p (List.mem_cons_self p ps) he.symm
      have : updRow p.1 (is_correct_answer p.2) r = r := updRow_noop _ _ r hne
      exact this ▸ List.mem_map_of_mem _ hr
    · intro p2 hp2
      exact h p2 (List.mem_cons_of_mem p hp2)

lemma drop_not_mem_take (l : List String) (k : Nat) (hnd : l.Nodup)
    {q : String} (hq : q ∈ l.drop k) : q ∉ l.take k := by
  rw [← List.take_append_drop k l, List.nodup_append] at hnd
  exact fun hin => hnd.2.2 hin hq

/-- C3: `submit_answers` pairs the session questions with the answers
positionally, truncated to the shorter sequence.  Extra answers are
ignored: the call behaves exactly like the call with the answer list cut
to the session length.  Unpaired trailing questions are untouched: every
database row whose text is a trailing question keeps its exact record.
Scoring an empty answer list against a session of length N touches no
question row at all and appends the session record with `total = N`,
`correct = 0`. -/
theorem score_truncation (st : AppState) (answers : List String) :
    submit_answers st answers
        = submit_answers st (answers.take st.current_questions.length)
  ∧ (st.current_questions.Nodup →
      ∀ q ∈ st.current_questions.drop
          (min st.current_questions.length answers.length),
      ∀ r ∈ st.db.questions, r.text = q →
        r ∈ (submit_answers st answers).1.db.questions)
  ∧ (submit_answers st []).1.db.questions = st.db.questions
  ∧ (submit_answers st []).1.db.quiz_history
      = st.db.quiz_history
        ++ [⟨(st.current_questions.length : Int), 0, st.current_source_file⟩]
  ∧ (submit_answers st []).2 = (0, st.current_questions.length) := by
  refine ⟨?_, ?_, ?_, ?_, ?_⟩
  · unfold submit_answers
    rw [zip_take_self]
  · intro hnd q hq r hr htext
    show r ∈ ((st.current_questions.zip answers).foldl scoreStep (st.db, 0)).1.questions
    apply mem_foldl_scoreStep _ _ _ _ hr
    intro p hp he
    have h1 : p.1 ∈ st.current_questions.take
        (min st.current_questions.length answers.length) :=
      fst_mem_take_of_mem_zip hp
    rw [he, htext] at h1
    exact drop_not_mem_take _ _ hnd hq h1
  · simp [submit_answers, record_quiz_result, List.zip_nil_right]
  · simp [submit_answers, record_quiz_result, List.zip_nil_right]
  · simp [submit_answers, List.zip_nil_right]

def stW3 : AppState :=
  ⟨⟨[⟨"a", "f", 0, 0⟩, ⟨"b", "f", 0, 0⟩], []⟩, ["a", "b"], some "f"⟩

/-- Witness for `score_truncation`: scoring one answer against a
two-question session leaves the row of the unpaired second question
untouched in the database. -/
theorem score_truncation_witness :
    (⟨"b", "f", 0, 0⟩ : Question) ∈ (submit_answers stW3 ["x"]).1.db.questions :=
  (score_truncation stW3 ["x"]).2.1 (by decide) "b" (by decide)
    ⟨"b", "f", 0, 0⟩ (by decide) (by decide)

lemma foldl_scoreStep_snd (pairs : List (String × String)) (d : DBState) (c : Nat) :
    (pairs.foldl scoreStep (d, c)).2
      = c + (pairs.filter (fun p => is_correct_answer p.2)).length := by
  induction pairs generalizing d c with
  | nil => simp
  | cons p ps ih =>
    rw [List.foldl_cons]
    cases hic : is_correct_answer p.2 with
    | false =>
      rw [show scoreStep (d, c) p
          = (update_question_stats d p.1 (is_correct_answer p.2), c) by
        unfold scoreStep
        rw [hic]
        rfl]
      rw [ih]
      simp [List.filter_cons, hic]
    | true =>
      rw [show scoreStep (d, c) p
          = (update_question_stats d p.1 (is_correct_answer p.2), c + 1) by
        unfold scoreStep
        rw [hic]
        rfl]
      rw [ih]
      simp [List.filter_cons, hic]
      omega

lemma quiz_history_foldl_insert (sample : List String) (db : DBState) (sf : String) :
    (sample.foldl (fun d q => insert_or_update_question d q sf) db).quiz_history
      = db.quiz_history := by
  induction sample generalizing db with
  | nil => rfl
  | cons q rest ih =>
    rw [List.foldl_cons, ih]
    unfold insert_or_update_question
    split <;> rfl

lemma quiz_history_foldl_scoreStep (pairs : List (String × String))
    (d : DBState) (c : Nat) :
    (pairs.foldl scoreStep (d, c)).1.quiz_history = d.quiz_history := by
  induction pairs generalizing d c with
  | nil => rfl
  | cons p ps ih => rw [List.foldl_cons, ih]; rfl

/-- C9: the round trip.  Generating a quiz of `n` questions from a file
whose content yields `E` extracted candidates selects
`min n E` questions; immediately scoring with at least that many
answers, all non-empty after stripping, reports
`correct = total = min n E` and appends exactly that session record. -/
theorem round_trip (st : AppState) (content source_file : String) (n : Nat)
    (sample answers : List String)
    (hs : validSample content n sample)
    (hlen : sample.length ≤ answers.length)
    (hans : ∀ a ∈ answers, is_correct_answer a = true) :
    (submit_answers (generate_quiz st sample source_file) answers).2
        = (min n (generate_trivia_questions content).length,
           min n (generate_trivia_questions content).length)
  ∧ (submit_answers (generate_quiz st sample source_file) answers).1.db.quiz_history
      = st.db.quiz_history
        ++ [⟨((min n (generate_trivia_questions content).length : Nat) : Int),
             ((min n (generate_trivia_questions content).length : Nat) : Int),
             some source_file⟩] := by
  have hfilter : (sample.zip answers).filter (fun p => is_correct_answer p.2)
      = sample.zip answers := by
    apply List.filter_eq_self.mpr
    intro p hp
    obtain ⟨a, b⟩ := p
    exact hans b (List.of_mem_zip hp).2
  have hcount : ∀ d : DBState, ((sample.zip answers).foldl scoreStep (d, 0)).2
      = min n (generate_trivia_questions content).length := by
    intro d
    rw [foldl_scoreStep_snd, hfilter, List.length_zip, Nat.zero_add,
      Nat.min_eq_left hlen, hs.2.1]
  constructor
  · show ((((sample.zip answers).foldl scoreStep (_, 0)).2 : Nat), sample.length)
        = (_, _)
    rw [hcount, hs.2.1]
  · simp only [submit_answers, generate_quiz, record_quiz_result]
    rw [quiz_history_foldl_scoreStep, quiz_history_foldl_insert, hcount, hs.2.1]

instance validSampleDecidable (content : String) (n : Nat) (sample : List String) :
    Decidable (validSample content n sample) :=
  inferInstanceAs (Decidable (_ ∧ _ ∧ _))

def contentW : String := "One two three four five six."

/-- Witness for `round_trip`: the content yields three candidates, a
quiz of 2 is sampled, two non-empty answers are submitted, and the
reported score is 2 out of 2. -/
theorem round_trip_witness :
    (submit_answers (generate_quiz initialAppState
        ["What One two three four five six?", "Why is One two three four five six?"]
        "f") ["a", "b"]).2
      = (min 2 (generate_trivia_questions contentW).length,
         min 2 (generate_trivia_questions contentW).length) :=
  (round_trip initialAppState contentW "f" 2
    ["What One two three four five six?", "Why is One two three four five six?"]
    ["a", "b"] (by decide) (by decide) (by decide)).1

lemma present_insert_self (db : DBState) (q sf : String) :
    ∃ r ∈ (insert_or_update_question db q sf).questions, r.text = q := by
  unfold insert_or_update_question
  by_cases h : db.questions.any (fun r => r.text = q) = true
  · rw [if_pos h]
    simp only [List.any_eq_true, decide_eq_true_eq] at h
    exact h
  · rw [if_neg h]
    exact ⟨⟨q, sf, 0, 0⟩, List.mem_append_right _ (List.mem_singleton_self _), rfl⟩

lemma present_insert_mono (db : DBState) (q sf x : String)
    (h : ∃ r ∈ db.questions, r.text = x) :
    ∃ r ∈ (insert_or_update_question db q sf).questions, r.text = x := by
  obtain ⟨r, hr, ht⟩ := h
  unfold insert_or_update_question
  split
  · exact ⟨r, hr, ht⟩
  · exact ⟨r, List.mem_append_left _ hr, ht⟩

lemma present_foldl_insert_mono (sample : List String) (db : DBState)
    (sf x : String) (h : ∃ r ∈ db.questions, r.text = x) :
    ∃ r ∈ (sample.foldl (fun d s => insert_or_update_question d s sf) db).questions,
      r.text = x := by
  induction sample generalizing db with
  | nil => exact h
  | cons s rest ih =>
    rw [List.foldl_cons]
    exact ih _ (present_insert_mono db s sf x h)

lemma present_foldl_insert (sample : List String) (db : DBState) (sf : String)
    (q : String) (hq : q ∈ sample) :
    ∃ r ∈ (sample.foldl (fun d s => insert_or_update_question d s sf) db).questions,
      r.text = q := by
  induction sample generalizing db with
  | nil => cases hq
  | cons s rest ih =>
    rw [List.foldl_cons]
    rcases List.mem_cons.mp hq with rfl | hq2
    · exact present_foldl_insert_mono rest _ sf q (present_insert_self db q sf)
    · exact ih _ hq2

/-- C10: after `generate_quiz`, every question text of the new session
is present as a row of the questions table; the set of stored texts is
preserved by `update_question_stats` and the questions table untouched
by `record_quiz_result`, so every `update_question_stats` call issued by
a subsequent `submit_answers` still targets an existing row. -/
theorem generate_upserts (st : AppState) (sample : List String)
    (source_file : String) :
    (∀ q ∈ (generate_quiz st sample source_file).current_questions,
        ∃ r ∈ (generate_quiz st sample source_file).db.questions, r.text = q)
  ∧ (∀ (db : DBState) (q : String) (b : Bool),
        (update_question_stats db q b).questions.map (fun r => r.text)
          = db.questions.map (fun r => r.text))
  ∧ (∀ (db : DBState) (t c : Int) (sf : Option String),
        (record_quiz_result db t c sf).questions = db.questions) := by
  refine ⟨?_, ?_, ?_⟩
  · intro q hq
    exact present_foldl_insert sample st.db source_file q hq
  · intro db q b
    show (db.questions.map (updRow q b)).map (fun r => r.text) = _
    rw [List.map_map]
    exact List.map_congr_left (fun r _ => updRow_text q b r)
  · intro db t c sf
    rfl

/-- Witness for `generate_upserts`: the single sampled question is
stored after generating. -/
theorem generate_upserts_witness :
    ∃ r ∈ (generate_quiz initialAppState ["a"] "f").db.questions, r.text = "a" :=
  (generate_upserts initialAppState ["a"] "f").1 "a" (by decide)

def contentCex : String := "A. A. A. A. A. A. A. A. A. A. One two three four five six."

/-- C4 counterexample: the claim truncates each kind to the first 10
regex matches BEFORE the word-count filter, but the source filters
first and then truncates.  On a content whose first ten matches are all
one-word sentences followed by one six-word sentence, the source emits
questions for the six-word sentence while the procedure described by the
claim emits nothing. -/
theorem extract_truncation_counterexample :
    "What One two three four five six?" ∈ generate_trivia_questions contentCex
  ∧ "What One two three four five six?" ∉ generate_trivia_questions_claim contentCex
  ∧ generate_trivia_questions_claim contentCex = [] := by
  refine ⟨by decide, by decide, by decide⟩

/-- C4 (amended): `generate_trivia_questions` emits a What question for
matched sentences with word count above 4 and Why is and How does
questions for word count above 5; each of the three kinds keeps the
first 10 sentences in source order that PASS its word-count filter (the
truncation applies after the filter, not before); and the result is the
deduplicated union of the three kinds, its order immaterial. -/
theorem extract_kinds (content : String) :
    (generate_trivia_questions content).Nodup
  ∧ (∀ q, q ∈ generate_trivia_questions content ↔
        q ∈ whatQuestions content ∨ q ∈ whyQuestions content
          ∨ q ∈ howQuestions content)
  ∧ whatQuestions content
      = (((reFindAll content).filter (fun s => 4 < wordCount s)).take 10).map
          (fun s => "What " ++ s ++ "?")
  ∧ whyQuestions content
      = (((reFindAll content).filter (fun s => 5 < wordCount s)).take 10).map
          (fun s => "Why is " ++ s ++ "?")
  ∧ howQuestions content
      = (((reFindAll content).filter (fun s => 5 < wordCount s)).take 10).map
          (fun s => "How does " ++ s ++ "?") := by
  refine ⟨List.nodup_dedup _, ?_, ?_, ?_, ?_⟩
  · intro q
    simp [generate_trivia_questions, List.mem_dedup, List.mem_append]
  · unfold whatQuestions
    rw [List.map_take]
  · unfold whyQuestions
    rw [List.map_take]
  · unfold howQuestions
    rw [List.map_take]
